import Mathlib

/-!
# CandidateForm: validation, document list and submission

A shallow embedding of `client/src/components/CandidateForm.js`.

* JavaScript strings are Lean `String`s.  Every character that `trim` removes lies in the
  Basic Multilingual Plane, so trimming code units and trimming code points agree.
* The component state (`useState` cells) is the record `FormState`; a handler maps a state
  to the next state, and `handleSubmit` also returns the list of effects it performs.
* `new Date()` and `new Date(dob)` belong to the runtime, not to the component: the record
  `Env` supplies them.  A date is seen only through `getFullYear`, `getMonth`, `getDate`.
* The error object is an insertion-ordered list of key/value pairs.
-/

namespace CandidateForm

/-! ## Strings -/

/-- ECMAScript `WhiteSpace` and `LineTerminator` code points: what `String.prototype.trim`
strips from both ends. -/
def isJsWhiteSpace (c : Char) : Bool :=
  let n := c.toNat
  n == 0x09 || n == 0x0A || n == 0x0B || n == 0x0C || n == 0x0D || n == 0x20 ||
  n == 0xA0 || n == 0x1680 || (decide (0x2000 ≤ n) && decide (n ≤ 0x200A)) ||
  n == 0x2028 || n == 0x2029 || n == 0x202F || n == 0x205F || n == 0x3000 || n == 0xFEFF

/-- Drop the trailing white space of a character list. -/
def dropTrailingWhiteSpace (l : List Char) : List Char :=
  (l.reverse.dropWhile isJsWhiteSpace).reverse

/-- The method `s.trim()`. -/
def jsTrim (s : String) : String :=
  ⟨dropTrailingWhiteSpace (s.data.dropWhile isJsWhiteSpace)⟩

/-- Truthiness of a string: only the empty string is falsy. -/
def strTruthy (s : String) : Bool :=
  !s.data.isEmpty

/-- The paraphrase "empty or whitespace-only". -/
def isBlank (s : String) : Prop :=
  ∀ c ∈ s.data, isJsWhiteSpace c = true

instance (s : String) : Decidable (isBlank s) := by
  unfold isBlank; infer_instance

/-! ## Numbers and dates -/

/-- The numbers the date arithmetic can produce: an integer or `NaN`. -/
inductive JsNum where
  | nan : JsNum
  | num (n : Int) : JsNum
  deriving DecidableEq, Repr

namespace JsNum

/-- Subtraction `a - b`; `NaN` is absorbing. -/
def sub : JsNum → JsNum → JsNum
  | num a, num b => num (a - b)
  | _, _ => nan

/-- Comparison `a < b`; false as soon as one side is `NaN`. -/
def lt : JsNum → JsNum → Bool
  | num a, num b => decide (a < b)
  | _, _ => false

/-- Strict equality `a === b`; `NaN` equals nothing. -/
def strictEq : JsNum → JsNum → Bool
  | num a, num b => decide (a = b)
  | _, _ => false

/-- Truthiness of a number: `0` and `NaN` are falsy. -/
def truthy : JsNum → Bool
  | num n => decide (n ≠ 0)
  | nan => false

end JsNum

/-- A `Date` object as the component observes it, through its local calendar fields.
`month` is zero-based, as `getMonth` reports it. -/
inductive JsDate where
  | invalid : JsDate
  | valid (year : Int) (month : Nat) (date : Nat) : JsDate
  deriving DecidableEq, Repr

namespace JsDate

/-- The getter `getFullYear()`. -/
def getFullYear : JsDate → JsNum
  | invalid => JsNum.nan
  | valid y _ _ => JsNum.num y

/-- The getter `getMonth()`. -/
def getMonth : JsDate → JsNum
  | invalid => JsNum.nan
  | valid _ m _ => JsNum.num (m : Int)

/-- The getter `getDate()`. -/
def getDate : JsDate → JsNum
  | invalid => JsNum.nan
  | valid _ _ d => JsNum.num (d : Int)

end JsDate

/-- The runtime services the component calls. `todayYear`, `todayMonth`, `todayDate` are the
local calendar fields of `new Date()` (never an invalid date); `parseDate dob` is
`new Date(dob)`. -/
structure Env where
  todayYear : Int
  todayMonth : Nat
  todayDate : Nat
  parseDate : String → JsDate

/-- The value `new Date()`. -/
def Env.today (env : Env) : JsDate :=
  JsDate.valid env.todayYear env.todayMonth env.todayDate

/-- The function `validateDateOfBirth`: it returns the computed age, a number. -/
def validateDateOfBirth (env : Env) (dob : String) : JsNum :=
  let today := env.today
  let birthDate := env.parseDate dob
  let age := today.getFullYear.sub birthDate.getFullYear
  let month := today.getMonth.sub birthDate.getMonth
  if month.lt (JsNum.num 0) ||
      (month.strictEq (JsNum.num 0) && today.getDate.lt birthDate.getDate) then
    age.sub (JsNum.num 1)
  else
    age

/-! ## Form state -/

/-- An address record. -/
structure Address where
  street1 : String
  street2 : String
  deriving DecidableEq, Repr

/-- A browser `File`: its name, its MIME type (the property `type`, a reserved word here)
and its bytes. -/
structure JsFile where
  name : String
  mimeType : String
  content : List Nat
  deriving DecidableEq, Repr

/-- One entry of the documents list; `file` is `none` for `null`. -/
structure Document where
  fileName : String
  fileType : String
  file : Option JsFile
  deriving DecidableEq, Repr

/-- The error object: keys in insertion order, each with its message. -/
abbrev ErrorMap := List (String × String)

namespace ErrorMap

/-- Assignment `errors[k] = v`: overwrite in place when the key exists, append otherwise. -/
def set : ErrorMap → String → String → ErrorMap
  | [], k, v => [(k, v)]
  | (k0, v0) :: rest, k, v =>
    if k0 = k then (k, v) :: rest else (k0, v0) :: set rest k v

/-- Property read `errors[k]`; `none` for `undefined`. -/
def get : ErrorMap → String → Option String
  | [], _ => none
  | (k0, v0) :: rest, k => if k0 = k then some v0 else get rest k

/-- The guarded assignment `if (c) errors[k] = v`. -/
def setIf (c : Bool) (m : ErrorMap) (k v : String) : ErrorMap :=
  if c then set m k v else m

/-- The list `Object.keys(errors)`. -/
def keys (m : ErrorMap) : List String :=
  m.map Prod.fst

end ErrorMap

/-- The `useState` cells of the component. -/
structure FormState where
  firstName : String
  lastName : String
  email : String
  dateOfBirth : String
  residentialAddress : Address
  permanentAddress : Address
  sameAsResidential : Bool
  documents : List Document
  errors : ErrorMap
  deriving DecidableEq, Repr

/-- The state at mount. -/
def initialState : FormState where
  firstName := ""
  lastName := ""
  email := ""
  dateOfBirth := ""
  residentialAddress := { street1 := "", street2 := "" }
  permanentAddress := { street1 := "", street2 := "" }
  sameAsResidential := true
  documents := [{ fileName := "", fileType := "", file := none }]
  errors := []

/-- The template literal that builds a per-document key: `document`, the index in decimal,
then a suffix. -/
def docKey (index : Nat) (suffix : String) : String :=
  "document" ++ toString index ++ suffix

/-! ## Validation -/

/-- The body of `documents.forEach((doc, index) => ...)` in `validateForm`, started at
`index`. -/
def validateDocuments : List Document → Nat → ErrorMap → ErrorMap
  | [], _, errs => errs
  | doc :: rest, index, errs =>
    let e1 := errs.setIf (!strTruthy doc.fileName)
      (docKey index "FileName") "File name is required"
    let e2 := e1.setIf (!strTruthy doc.fileType)
      (docKey index "FileType") "File type is required"
    let e3 := e2.setIf (!doc.file.isSome)
      (docKey index "File") "File is required"
    validateDocuments rest (index + 1) e3

/-- The object `newErrors` that `validateForm` builds. -/
def newErrors (env : Env) (s : FormState) : ErrorMap :=
  let e0 : ErrorMap := []
  let e1 := e0.setIf (!strTruthy (jsTrim s.firstName))
    "firstName" "First name is required"
  let e2 := e1.setIf (!strTruthy (jsTrim s.lastName))
    "lastName" "Last name is required"
  let e3 := e2.setIf (!strTruthy (jsTrim s.email))
    "email" "Email is required"
  let e4 := e3.setIf (!strTruthy (jsTrim s.dateOfBirth))
    "dateOfBirth" "Date of birth is required"
  let e5 := e4.setIf (!(validateDateOfBirth env s.dateOfBirth).truthy)
    "dateOfBirth" "You must be at least 18 years old"
  let e6 := e5.setIf (!strTruthy (jsTrim s.residentialAddress.street1))
    "residentialStreet1" "Residential street 1 is required"
  let e7 := e6.setIf (!s.sameAsResidential && !strTruthy (jsTrim s.permanentAddress.street1))
    "permanentStreet1" "Permanent street 1 is required"
  let e8 := e7.setIf (decide (s.documents.length < 2))
    "documents" "At least two documents are required"
  validateDocuments s.documents 0 e8

/-- The function `validateForm`: the state after `setErrors(newErrors)` and the returned
boolean. -/
def validateForm (env : Env) (s : FormState) : FormState × Bool :=
  let errs := newErrors env s
  ({ s with errors := errs }, errs.keys.length == 0)

/-! ## File selection and the documents list -/

/-- The list `allowedTypes` of `validateFile`. -/
def allowedTypes : List String :=
  ["image/jpeg", "image/png", "application/pdf"]

/-- The function `validateFile`: `file && allowedTypes.includes(file.type)`. -/
def validateFile (file : Option JsFile) : Bool :=
  match file with
  | none => false
  | some f => allowedTypes.contains f.mimeType

/-- The function `handleFileChange` for the slot `index`; `file` is `e.target.files[0]`,
`none` when the picker was dismissed.  The render binds the handler to the indices of the
rows only, so the index write `updatedDocuments[index] = ...` is a replacement at a
position of the list. -/
def handleFileChange (s : FormState) (file : Option JsFile) (index : Nat) : FormState :=
  match file with
  | none => s
  | some f =>
    if !validateFile (some f) then
      let message := "Invalid file type. Only JPEG, PNG, and PDF are allowed."
      { s with errors := s.errors.set (docKey index "") message }
    else
      let updatedDocuments := s.documents.set index
        { fileName := f.name, fileType := f.mimeType, file := some f }
      { s with documents := updatedDocuments, errors := s.errors.set (docKey index "") "" }

/-- The function `handleAddDocument`. -/
def handleAddDocument (s : FormState) : FormState :=
  { s with documents := s.documents ++ [{ fileName := "", fileType := "", file := none }] }

/-- The call `arr.filter((x, i) => p x i)`, with the index counted from `start`. -/
def filterWithIndex {α : Type} (p : α → Nat → Bool) : List α → Nat → List α
  | [], _ => []
  | x :: rest, start =>
    if p x start then x :: filterWithIndex p rest (start + 1)
    else filterWithIndex p rest (start + 1)

/-- The function `handleRemoveDocument`. -/
def handleRemoveDocument (s : FormState) (index : Nat) : FormState :=
  let updatedDocuments := filterWithIndex (fun _ i => i != index) s.documents 0
  { s with documents := updatedDocuments }

/-- The user actions on the documents section. -/
inductive UiEvent where
  | addDocument : UiEvent
  | removeDocument (index : Nat) : UiEvent
  | fileChange (index : Nat) (file : Option JsFile) : UiEvent
  deriving DecidableEq, Repr

/-- Which controls the render puts on screen: one row per document with a file input, and
in that row a remove button under the guard `documents.length > 1`; the add button is always
there. -/
def offered (s : FormState) : UiEvent → Bool
  | UiEvent.addDocument => true
  | UiEvent.removeDocument index =>
    decide (index < s.documents.length) && decide (s.documents.length > 1)
  | UiEvent.fileChange index _ => decide (index < s.documents.length)

/-- The handler the render wires to each control. -/
def dispatch (s : FormState) : UiEvent → FormState
  | UiEvent.addDocument => handleAddDocument s
  | UiEvent.removeDocument index => handleRemoveDocument s index
  | UiEvent.fileChange index file => handleFileChange s file index

/-- One user action: `none` when the control is not on screen. -/
def step (s : FormState) (ev : UiEvent) : Option FormState :=
  if offered s ev then some (dispatch s ev) else none

/-- States reached from the state at mount by actions on the documents section. -/
inductive Reachable : FormState → Prop where
  | mount : Reachable initialState
  | next {s t : FormState} (ev : UiEvent) : Reachable s → step s ev = some t → Reachable t

/-! ## Submission -/

/-- A value of a `FormData` entry: a string or a file. -/
inductive FormValue where
  | text (value : String) : FormValue
  | blob (file : JsFile) : FormValue
  deriving DecidableEq, Repr

/-- A `FormData` object: its entries in order of `append`. -/
abbrev FormData := List (String × FormValue)

/-- String coercion of a boolean, as `FormData.append` applies it. -/
def boolToString (b : Bool) : String :=
  if b then "true" else "false"

/-- The loop `documents.forEach((doc) => { if (doc.file) formData.append('documents', doc.file) })`. -/
def appendFiles : List Document → FormData → FormData
  | [], formData => formData
  | doc :: rest, formData =>
    match doc.file with
    | some f => appendFiles rest (formData ++ [("documents", FormValue.blob f)])
    | none => appendFiles rest formData

/-- The `formData` that `handleSubmit` assembles inside its `try` block. -/
def buildFormData (s : FormState) : FormData :=
  let fd0 : FormData := []
  let fd1 := fd0 ++ [("firstName", FormValue.text s.firstName)]
  let fd2 := fd1 ++ [("lastName", FormValue.text s.lastName)]
  let fd3 := fd2 ++ [("email", FormValue.text s.email)]
  let fd4 := fd3 ++ [("dateOfBirth", FormValue.text s.dateOfBirth)]
  let fd5 := fd4 ++ [("sameAsResidential", FormValue.text (boolToString s.sameAsResidential))]
  let fd6 := fd5 ++ [("residentialAddress[street1]", FormValue.text s.residentialAddress.street1)]
  let fd7 := fd6 ++ [("residentialAddress[street2]", FormValue.text s.residentialAddress.street2)]
  let fd8 := if !s.sameAsResidential then
    fd7 ++ [("permanentAddress[street1]", FormValue.text s.permanentAddress.street1),
            ("permanentAddress[street2]", FormValue.text s.permanentAddress.street2)]
    else fd7
  appendFiles s.documents fd8

/-- How the awaited `axios.post` settles: a response whose `data.success` is truthy or not
(with `data.message`), or a rejection. -/
inductive Outcome where
  | response (success : Bool) (message : String) : Outcome
  | transportError : Outcome
  deriving DecidableEq, Repr

/-- What `handleSubmit` does to the outside world. -/
inductive Effect where
  | consoleLogErrors (label : String) (errors : ErrorMap) : Effect
  | consoleLog (text : String) : Effect
  | consoleError (label : String) : Effect
  | post (url : String) (body : FormData) : Effect
  | historyPush (route : String) : Effect
  deriving DecidableEq, Repr

/-- The function `handleSubmit`, given how the request settles: the next state and the
effects in order. -/
def handleSubmit (env : Env) (s : FormState) (outcome : Outcome) : FormState × List Effect :=
  let (s1, ok) := validateForm env s
  if !ok then
    (s1, [Effect.consoleLogErrors "Validation failed:" s.errors])
  else
    let formData := buildFormData s
    let request := Effect.post "/candidate/submit" formData
    match outcome with
    | Outcome.response true _ =>
      (s1, [request, Effect.consoleLog "Candidate added successfully",
            Effect.historyPush "/success-page"])
    | Outcome.response false _ =>
      (s1, [request, Effect.consoleError "Successfully added the candidate:"])
    | Outcome.transportError =>
      (s1, [request, Effect.consoleError "Error adding candidate:"])

/-- The requests among a list of effects. -/
def requests (effects : List Effect) : List Effect :=
  effects.filter fun e => match e with
    | Effect.post _ _ => true
    | _ => false

/-- The navigations among a list of effects. -/
def navigations (effects : List Effect) : List String :=
  effects.filterMap fun e => match e with
    | Effect.historyPush route => some route
    | _ => none

/-! ## Auxiliary notions for the statements -/

/-- The value of a decimal digit character. -/
def digitValue (c : Char) : Nat :=
  c.toNat - 48

/-- The number a list of decimal digits denotes, most significant digit first. -/
def decimalValue (l : List Char) : Nat :=
  l.foldl (fun acc c => 10 * acc + digitValue c) 0

/-- A character list that does not begin with a decimal digit. -/
def NoDigitHead (l : List Char) : Prop :=
  ∀ c, l.head? = some c → c.isDigit = false

/-- The three suffixes `validateForm` uses. -/
def IsDocSuffix (sfx : String) : Prop :=
  sfx = "FileName" ∨ sfx = "FileType" ∨ sfx = "File"

/-- The keys of the scalar fields. -/
def IsFieldKey (k : String) : Prop :=
  k = "firstName" ∨ k = "lastName" ∨ k = "email" ∨ k = "dateOfBirth" ∨
    k = "residentialStreet1" ∨ k = "permanentStreet1"

/-- The five required text fields of the form. -/
inductive RequiredField where
  | firstName : RequiredField
  | lastName : RequiredField
  | email : RequiredField
  | dateOfBirth : RequiredField
  | residentialStreet1 : RequiredField
  deriving DecidableEq, Repr

/-- The value a required field holds in a state. -/
def RequiredField.value (s : FormState) : RequiredField → String
  | RequiredField.firstName => s.firstName
  | RequiredField.lastName => s.lastName
  | RequiredField.email => s.email
  | RequiredField.dateOfBirth => s.dateOfBirth
  | RequiredField.residentialStreet1 => s.residentialAddress.street1

/-- The error key of a required field. -/
def RequiredField.key : RequiredField → String
  | RequiredField.firstName => "firstName"
  | RequiredField.lastName => "lastName"
  | RequiredField.email => "email"
  | RequiredField.dateOfBirth => "dateOfBirth"
  | RequiredField.residentialStreet1 => "residentialStreet1"

/-- Calendar order on (year, month, day): the first date is not after the second. -/
def dateLe (y1 : Int) (m1 d1 : Nat) (y2 : Int) (m2 d2 : Nat) : Prop :=
  y1 < y2 ∨ (y1 = y2 ∧ (m1 < m2 ∨ (m1 = m2 ∧ d1 ≤ d2)))

/-- The pair (month, day) `m1, d1` lexicographically precedes `m2, d2`. -/
def monthDayBefore (m1 d1 m2 d2 : Nat) : Prop :=
  m1 < m2 ∨ (m1 = m2 ∧ d1 < d2)

instance (y1 : Int) (m1 d1 : Nat) (y2 : Int) (m2 d2 : Nat) :
    Decidable (dateLe y1 m1 d1 y2 m2 d2) := by
  unfold dateLe; infer_instance

instance (m1 d1 m2 d2 : Nat) : Decidable (monthDayBefore m1 d1 m2 d2) := by
  unfold monthDayBefore; infer_instance

/-- Whether the awaited request settled with a response marked successful. -/
def Outcome.succeeded : Outcome → Bool
  | Outcome.response true _ => true
  | _ => false

/-- The entries `handleSubmit` appends for the scalar fields and the residential address. -/
def scalarParts (s : FormState) : FormData :=
  [("firstName", FormValue.text s.firstName),
   ("lastName", FormValue.text s.lastName),
   ("email", FormValue.text s.email),
   ("dateOfBirth", FormValue.text s.dateOfBirth),
   ("sameAsResidential", FormValue.text (boolToString s.sameAsResidential)),
   ("residentialAddress[street1]", FormValue.text s.residentialAddress.street1),
   ("residentialAddress[street2]", FormValue.text s.residentialAddress.street2)]

/-- The two entries of the permanent address. -/
def permanentParts (s : FormState) : FormData :=
  [("permanentAddress[street1]", FormValue.text s.permanentAddress.street1),
   ("permanentAddress[street2]", FormValue.text s.permanentAddress.street2)]

/-- One file part under the shared name `documents`. -/
def filePart (f : JsFile) : String × FormValue :=
  ("documents", FormValue.blob f)

/-! ## Sample data for the concrete checks -/

/-- A sample `new Date(dob)`: a host in the UTC zone reading an ISO date `YYYY-MM-DD`, whose
calendar fields are the ones written in the string; any other string is an invalid date. -/
def sampleParseDate (dob : String) : JsDate :=
  match dob.data with
  | [y1, y2, y3, y4, '-', m1, m2, '-', d1, d2] =>
    if [y1, y2, y3, y4, m1, m2, d1, d2].all Char.isDigit then
      let month := decimalValue [m1, m2]
      let day := decimalValue [d1, d2]
      if 1 ≤ month ∧ month ≤ 12 ∧ 1 ≤ day ∧ day ≤ 31 then
        JsDate.valid (decimalValue [y1, y2, y3, y4]) (month - 1) day
      else JsDate.invalid
    else JsDate.invalid
  | _ => JsDate.invalid

/-- A sample runtime whose clock reads 6 November 2026. -/
def sampleEnv : Env where
  todayYear := 2026
  todayMonth := 10
  todayDate := 6
  parseDate := sampleParseDate

/-- A sample PDF file. -/
def samplePdf : JsFile where
  name := "passport.pdf"
  mimeType := "application/pdf"
  content := [37, 80, 68, 70]

/-- A sample JPEG file. -/
def sampleJpeg : JsFile where
  name := "photo.jpg"
  mimeType := "image/jpeg"
  content := [255, 216, 255]

/-- A sample plain-text file. -/
def sampleText : JsFile where
  name := "notes.txt"
  mimeType := "text/plain"
  content := [104, 105]

/-- The document entry `handleFileChange` writes for a file. -/
def documentOf (f : JsFile) : Document where
  fileName := f.name
  fileType := f.mimeType
  file := some f

/-- A completely filled form: born 6 November 2005 (21 years before the sample clock), same
address, two documents. -/
def sampleValid : FormState where
  firstName := "Ann"
  lastName := "Lee"
  email := "a@x.com"
  dateOfBirth := "2005-11-06"
  residentialAddress := { street1 := "1 Main St", street2 := "" }
  permanentAddress := { street1 := "", street2 := "" }
  sameAsResidential := true
  documents := [documentOf samplePdf, documentOf sampleJpeg]
  errors := []

/-! ## Decimal rendering and key distinctness -/

theorem digitChar_spec (k : Nat) (hk : k < 10) :
    digitValue (Nat.digitChar k) = k ∧ (Nat.digitChar k).isDigit = true := by
  interval_cases k <;> decide

theorem foldl_toDigitsCore (fuel : Nat) :
    ∀ (n : Nat) (ds : List Char), n < fuel →
      (Nat.toDigitsCore 10 fuel n ds).foldl (fun acc c => 10 * acc + digitValue c) 0 =
        ds.foldl (fun acc c => 10 * acc + digitValue c) n := by
  induction fuel with
  | zero => intro n ds h; omega
  | succ fuel ih =>
    intro n ds h
    have hd := (digitChar_spec (n % 10) (Nat.mod_lt _ (by decide))).1
    unfold Nat.toDigitsCore
    by_cases h0 : n / 10 = 0
    · simp only [h0, if_true, List.foldl_cons, hd]
      congr 1
      omega
    · simp only [h0, if_false]
      rw [ih (n / 10) _ (by omega)]
      simp only [List.foldl_cons, hd]
      congr 1
      omega

theorem decimalValue_toDigits (n : Nat) : decimalValue (Nat.toDigits 10 n) = n := by
  unfold decimalValue Nat.toDigits
  rw [foldl_toDigitsCore (n + 1) n [] (by omega)]
  rfl

theorem toDigits_injective {i j : Nat} (h : Nat.toDigits 10 i = Nat.toDigits 10 j) : i = j := by
  have := congrArg decimalValue h
  simpa [decimalValue_toDigits] using this

theorem toDigitsCore_isDigit (fuel : Nat) :
    ∀ (n : Nat) (ds : List Char), (∀ c ∈ ds, c.isDigit = true) →
      ∀ c ∈ Nat.toDigitsCore 10 fuel n ds, c.isDigit = true := by
  induction fuel with
  | zero => intro n ds h; simpa [Nat.toDigitsCore] using h
  | succ fuel ih =>
    intro n ds h
    have hd := (digitChar_spec (n % 10) (Nat.mod_lt _ (by decide))).2
    have hcons : ∀ c ∈ Nat.digitChar (n % 10) :: ds, c.isDigit = true := by
      intro c hc
      rcases List.mem_cons.1 hc with rfl | hc
      · exact hd
      · exact h c hc
    unfold Nat.toDigitsCore
    by_cases h0 : n / 10 = 0
    · simpa only [h0, if_true] using hcons
    · simpa only [h0, if_false] using ih (n / 10) _ hcons

theorem toDigits_isDigit (n : Nat) : ∀ c ∈ Nat.toDigits 10 n, c.isDigit = true :=
  toDigitsCore_isDigit (n + 1) n [] (by simp)

theorem toDigitsCore_ne_nil (fuel : Nat) :
    ∀ (n : Nat) (ds : List Char), ds ≠ [] → Nat.toDigitsCore 10 fuel n ds ≠ [] := by
  induction fuel with
  | zero => intro n ds h; simpa [Nat.toDigitsCore] using h
  | succ fuel ih =>
    intro n ds _
    unfold Nat.toDigitsCore
    by_cases h0 : n / 10 = 0
    · simp [h0]
    · simpa only [h0, if_false] using ih (n / 10) _ (List.cons_ne_nil _ _)

theorem toDigits_ne_nil (n : Nat) : Nat.toDigits 10 n ≠ [] := by
  unfold Nat.toDigits Nat.toDigitsCore
  by_cases h0 : n / 10 = 0
  · simp [h0]
  · simpa only [h0, if_false] using toDigitsCore_ne_nil n (n / 10) _ (List.cons_ne_nil _ _)

theorem digits_append_cancel :
    ∀ (d1 d2 s1 s2 : List Char), (∀ c ∈ d1, c.isDigit = true) → (∀ c ∈ d2, c.isDigit = true) →
      NoDigitHead s1 → NoDigitHead s2 → d1 ++ s1 = d2 ++ s2 → d1 = d2 ∧ s1 = s2 := by
  intro d1
  induction d1 with
  | nil =>
    intro d2 s1 s2 _ h2 n1 _ h
    cases d2 with
    | nil => exact ⟨rfl, by simpa using h⟩
    | cons c d2 =>
      exfalso
      have hc := h2 c (List.mem_cons_self _ _)
      have := n1 c (by simp at h; simp [h])
      simp [hc] at this
  | cons c d1 ih =>
    intro d2 s1 s2 h1 h2 n1 n2 h
    cases d2 with
    | nil =>
      exfalso
      have hc := h1 c (List.mem_cons_self _ _)
      have := n2 c (by simp at h; simp [← h])
      simp [hc] at this
    | cons c2 d2 =>
      simp only [List.cons_append, List.cons.injEq] at h
      obtain ⟨rfl, h⟩ := h
      obtain ⟨hd, hs⟩ := ih d2 s1 s2 (fun x hx => h1 x (List.mem_cons_of_mem _ hx))
        (fun x hx => h2 x (List.mem_cons_of_mem _ hx)) n1 n2 h
      exact ⟨by rw [hd], hs⟩

theorem docKey_data (i : Nat) (sfx : String) :
    (docKey i sfx).data = "document".data ++ (Nat.toDigits 10 i ++ sfx.data) := by
  simp [docKey, toString, Nat.repr, String.data_append, List.asString]

theorem IsDocSuffix.noDigitHead {sfx : String} (h : IsDocSuffix sfx) : NoDigitHead sfx.data := by
  rcases h with rfl | rfl | rfl <;> intro c hc <;> simp at hc <;> subst hc <;> decide

theorem docKey_inj {i j : Nat} {s1 s2 : String} (h1 : NoDigitHead s1.data)
    (h2 : NoDigitHead s2.data) (h : docKey i s1 = docKey j s2) : i = j ∧ s1 = s2 := by
  have hd := congrArg String.data h
  rw [docKey_data, docKey_data] at hd
  have hd := List.append_cancel_left hd
  obtain ⟨hij, hs⟩ := digits_append_cancel _ _ _ _ (toDigits_isDigit i) (toDigits_isDigit j) h1 h2 hd
  exact ⟨toDigits_injective hij, String.ext hs⟩

theorem documents_ne_docKey (j : Nat) (sfx : String) : "documents" ≠ docKey j sfx := by
  intro h
  have hd := congrArg String.data h
  rw [docKey_data] at hd
  have hd : ['s'] = Nat.toDigits 10 j ++ sfx.data := @List.append_cancel_left _ "document".data _ _ hd
  cases hj : Nat.toDigits 10 j with
  | nil => exact toDigits_ne_nil j hj
  | cons c rest =>
    have hc := toDigits_isDigit j c (by simp [hj])
    rw [hj] at hd
    simp only [List.cons_append, List.cons.injEq] at hd
    rw [← hd.1] at hc
    exact absurd hc (by decide)

theorem IsFieldKey.ne_docKey {k : String} (h : IsFieldKey k) (j : Nat) (sfx : String) :
    k ≠ docKey j sfx := by
  intro he
  have hd := congrArg String.data he
  rw [docKey_data] at hd
  rcases h with rfl | rfl | rfl | rfl | rfl | rfl <;> simp at hd

/-! ## Trimming -/

theorem all_dropWhile_iff (p : Char → Bool) (l : List Char) :
    (∀ c ∈ l.dropWhile p, p c = true) ↔ ∀ c ∈ l, p c = true := by
  induction l with
  | nil => simp
  | cons a t ih =>
    by_cases ha : p a = true
    · simp [List.dropWhile_cons, ha, ih]
    · simp [List.dropWhile_cons, ha]

theorem dropTrailingWhiteSpace_eq_nil_iff (l : List Char) :
    dropTrailingWhiteSpace l = [] ↔ ∀ c ∈ l, isJsWhiteSpace c = true := by
  simp [dropTrailingWhiteSpace, List.dropWhile_eq_nil_iff]

/-- The test `!s.trim()` of the source succeeds exactly on the blank strings. -/
theorem trim_falsy_iff (s : String) : strTruthy (jsTrim s) = false ↔ isBlank s := by
  simp only [strTruthy, jsTrim, isBlank, Bool.not_eq_false', List.isEmpty_iff,
    dropTrailingWhiteSpace_eq_nil_iff]
  exact all_dropWhile_iff _ _

theorem trim_truthy_iff (s : String) : strTruthy (jsTrim s) = true ↔ ¬ isBlank s := by
  rw [← trim_falsy_iff]; simp

theorem strTruthy_eq_false_iff (s : String) : strTruthy s = false ↔ s = "" := by
  cases s with
  | mk l => cases l <;> simp [strTruthy, String.ext_iff]

/-! ## The error object -/

theorem ErrorMap.mem_keys_set (m : ErrorMap) (k0 v k : String) :
    k ∈ ErrorMap.keys (ErrorMap.set m k0 v) ↔ k = k0 ∨ k ∈ ErrorMap.keys m := by
  induction m with
  | nil => simp [ErrorMap.set, ErrorMap.keys]
  | cons p rest ih =>
    obtain ⟨k1, v1⟩ := p
    unfold ErrorMap.set
    by_cases h : k1 = k0
    · subst h
      simp [ErrorMap.keys]
    · simp only [h, if_false]
      simp only [ErrorMap.keys, List.map_cons, List.mem_cons] at ih ⊢
      rw [ih]
      tauto

theorem ErrorMap.get_set (m : ErrorMap) (k0 v k : String) :
    ErrorMap.get (ErrorMap.set m k0 v) k = if k = k0 then some v else ErrorMap.get m k := by
  induction m with
  | nil =>
    by_cases h : k = k0
    · simp [ErrorMap.set, ErrorMap.get, h]
    · simp [ErrorMap.set, ErrorMap.get, h, Ne.symm h]
  | cons p rest ih =>
    obtain ⟨k1, v1⟩ := p
    unfold ErrorMap.set
    by_cases h : k1 = k0
    · subst h
      by_cases hk : k = k1
      · simp [ErrorMap.get, hk]
      · simp [ErrorMap.get, hk, Ne.symm hk]
    · simp only [h, if_false]
      unfold ErrorMap.get
      by_cases hk : k1 = k
      · subst hk
        simp [h]
      · simp only [hk, if_false, ih]

theorem ErrorMap.get_isSome_iff (m : ErrorMap) (k : String) :
    (ErrorMap.get m k).isSome = true ↔ k ∈ ErrorMap.keys m := by
  induction m with
  | nil => simp [ErrorMap.get, ErrorMap.keys]
  | cons p rest ih =>
    obtain ⟨k1, v1⟩ := p
    unfold ErrorMap.get
    by_cases h : k1 = k
    · simp [h, ErrorMap.keys]
    · simp only [h, if_false, ih]
      simp [ErrorMap.keys, Ne.symm h]

theorem ErrorMap.mem_keys_setIf (c : Bool) (m : ErrorMap) (k0 v k : String) :
    k ∈ ErrorMap.keys (ErrorMap.setIf c m k0 v) ↔
      (c = true ∧ k = k0) ∨ k ∈ ErrorMap.keys m := by
  cases c <;> simp [ErrorMap.setIf, ErrorMap.mem_keys_set]

theorem ErrorMap.get_setIf (c : Bool) (m : ErrorMap) (k0 v k : String) :
    ErrorMap.get (ErrorMap.setIf c m k0 v) k =
      if c = true ∧ k = k0 then some v else ErrorMap.get m k := by
  cases c <;> simp [ErrorMap.setIf, ErrorMap.get_set]

/-! ## The per-document checks -/

theorem mem_keys_validateDocuments (docs : List Document) :
    ∀ (start : Nat) (errs : ErrorMap) (k : String),
      k ∈ ErrorMap.keys (validateDocuments docs start errs) ↔
        k ∈ ErrorMap.keys errs ∨ ∃ j d, docs[j]? = some d ∧
          ((d.fileName = "" ∧ k = docKey (start + j) "FileName") ∨
           (d.fileType = "" ∧ k = docKey (start + j) "FileType") ∨
           (d.file = none ∧ k = docKey (start + j) "File")) := by
  induction docs with
  | nil => intro start errs k; simp [validateDocuments]
  | cons doc rest ih =>
    intro start errs k
    simp only [validateDocuments]
    rw [ih, ErrorMap.mem_keys_setIf, ErrorMap.mem_keys_setIf, ErrorMap.mem_keys_setIf]
    simp only [Bool.not_eq_true', strTruthy_eq_false_iff, Option.not_isSome,
      Option.isNone_iff_eq_none]
    constructor
    · rintro (h | ⟨j, d, hj, h⟩)
      · rcases h with ⟨h1, h2⟩ | ⟨h1, h2⟩ | ⟨h1, h2⟩ | h
        · exact Or.inr ⟨0, doc, by simp, Or.inr (Or.inr ⟨h1, by simpa using h2⟩)⟩
        · exact Or.inr ⟨0, doc, by simp, Or.inr (Or.inl ⟨h1, by simpa using h2⟩)⟩
        · exact Or.inr ⟨0, doc, by simp, Or.inl ⟨h1, by simpa using h2⟩⟩
        · exact Or.inl h
      · refine Or.inr ⟨j + 1, d, by simpa using hj, ?_⟩
        rw [show start + (j + 1) = start + 1 + j by omega]
        exact h
    · rintro (h | ⟨j, d, hj, h⟩)
      · exact Or.inl (Or.inr (Or.inr (Or.inr h)))
      · cases j with
        | zero =>
          simp only [List.getElem?_cons_zero, Option.some.injEq] at hj
          subst hj
          simp only [Nat.add_zero] at h
          rcases h with h | h | h
          · exact Or.inl (Or.inr (Or.inr (Or.inl h)))
          · exact Or.inl (Or.inr (Or.inl h))
          · exact Or.inl (Or.inl h)
        | succ j =>
          refine Or.inr ⟨j, d, by simpa using hj, ?_⟩
          rw [show start + 1 + j = start + (j + 1) by omega]
          exact h

theorem get_validateDocuments_of_not_docKey (docs : List Document) (k : String)
    (hk : ∀ j sfx, k ≠ docKey j sfx) :
    ∀ (start : Nat) (errs : ErrorMap),
      ErrorMap.get (validateDocuments docs start errs) k = ErrorMap.get errs k := by
  induction docs with
  | nil => intro start errs; simp [validateDocuments]
  | cons doc rest ih =>
    intro start errs
    simp only [validateDocuments]
    rw [ih, ErrorMap.get_setIf, ErrorMap.get_setIf, ErrorMap.get_setIf]
    simp [hk]

theorem validateDocuments_complete (docs : List Document)
    (h : ∀ d ∈ docs, d.fileName ≠ "" ∧ d.fileType ≠ "" ∧ d.file ≠ none) :
    ∀ (start : Nat) (errs : ErrorMap), validateDocuments docs start errs = errs := by
  induction docs with
  | nil => intro start errs; simp [validateDocuments]
  | cons doc rest ih =>
    intro start errs
    obtain ⟨h1, h2, h3⟩ := h doc (List.mem_cons_self _ _)
    have t1 : strTruthy doc.fileName = true := by
      cases hb : strTruthy doc.fileName
      · exact absurd ((strTruthy_eq_false_iff _).1 hb) h1
      · rfl
    have t2 : strTruthy doc.fileType = true := by
      cases hb : strTruthy doc.fileType
      · exact absurd ((strTruthy_eq_false_iff _).1 hb) h2
      · rfl
    have t3 : doc.file.isSome = true := Option.isSome_iff_ne_none.2 h3
    simp only [validateDocuments, t1, t2, t3, Bool.not_true, ErrorMap.setIf,
      Bool.false_eq_true, if_false]
    exact ih (fun d hd => h d (List.mem_cons_of_mem _ hd)) _ _

/-! ## The keys of `newErrors` -/

/-- Which keys `validateForm` records, and under which condition. -/
theorem mem_keys_newErrors (env : Env) (s : FormState) (k : String) :
    k ∈ ErrorMap.keys (newErrors env s) ↔
      (isBlank s.firstName ∧ k = "firstName") ∨
      (isBlank s.lastName ∧ k = "lastName") ∨
      (isBlank s.email ∧ k = "email") ∨
      ((isBlank s.dateOfBirth ∨ (validateDateOfBirth env s.dateOfBirth).truthy = false) ∧
        k = "dateOfBirth") ∨
      (isBlank s.residentialAddress.street1 ∧ k = "residentialStreet1") ∨
      ((s.sameAsResidential = false ∧ isBlank s.permanentAddress.street1) ∧
        k = "permanentStreet1") ∨
      (s.documents.length < 2 ∧ k = "documents") ∨
      ∃ j d, s.documents[j]? = some d ∧
        ((d.fileName = "" ∧ k = docKey j "FileName") ∨
         (d.fileType = "" ∧ k = docKey j "FileType") ∨
         (d.file = none ∧ k = docKey j "File")) := by
  simp only [newErrors]
  rw [mem_keys_validateDocuments]
  simp only [Nat.zero_add]
  simp only [ErrorMap.mem_keys_setIf, Bool.not_eq_true', trim_falsy_iff, Bool.and_eq_true,
    decide_eq_true_eq]
  have hnil : k ∉ ErrorMap.keys [] := by simp [ErrorMap.keys]
  simp only [hnil, or_false]
  generalize (∃ j d, s.documents[j]? = some d ∧
    ((d.fileName = "" ∧ k = docKey j "FileName") ∨
     (d.fileType = "" ∧ k = docKey j "FileType") ∨
     (d.file = none ∧ k = docKey j "File"))) = pDocs
  generalize (k = "firstName") = a1
  generalize (k = "lastName") = a2
  generalize (k = "email") = a3
  generalize (k = "dateOfBirth") = a4
  generalize (k = "residentialStreet1") = a5
  generalize (k = "permanentStreet1") = a6
  generalize (k = "documents") = a7
  generalize isBlank s.firstName = b1
  generalize isBlank s.lastName = b2
  generalize isBlank s.email = b3
  generalize isBlank s.dateOfBirth = b4
  generalize ((validateDateOfBirth env s.dateOfBirth).truthy = false) = b4a
  generalize isBlank s.residentialAddress.street1 = b5
  generalize isBlank s.permanentAddress.street1 = b6
  generalize (s.sameAsResidential = false) = b6a
  generalize (s.documents.length < 2) = b7
  constructor
  · rintro ((h | h | h | h | h | h | h | h) | h) <;> simp only [h, true_or, or_true, true_and]
  · rintro (h | h | h | ⟨h | h, h2⟩ | h | h | h | h) <;>
      first
        | simp only [h, h2, true_or, or_true, true_and, and_self]
        | simp only [h, true_or, or_true, true_and, and_self]

/-- A field key or `documents` is recorded only by its own check. -/
theorem not_docKey_mem_keys_newErrors (env : Env) (s : FormState) (k : String)
    (hk : ∀ j sfx, k ≠ docKey j sfx) :
    k ∈ ErrorMap.keys (newErrors env s) ↔
      (isBlank s.firstName ∧ k = "firstName") ∨
      (isBlank s.lastName ∧ k = "lastName") ∨
      (isBlank s.email ∧ k = "email") ∨
      ((isBlank s.dateOfBirth ∨ (validateDateOfBirth env s.dateOfBirth).truthy = false) ∧
        k = "dateOfBirth") ∨
      (isBlank s.residentialAddress.street1 ∧ k = "residentialStreet1") ∨
      ((s.sameAsResidential = false ∧ isBlank s.permanentAddress.street1) ∧
        k = "permanentStreet1") ∨
      (s.documents.length < 2 ∧ k = "documents") := by
  rw [mem_keys_newErrors]
  have hno : ¬ ∃ j d, s.documents[j]? = some d ∧
      ((d.fileName = "" ∧ k = docKey j "FileName") ∨
       (d.fileType = "" ∧ k = docKey j "FileType") ∨
       (d.file = none ∧ k = docKey j "File")) := by
    rintro ⟨j, d, _, h | h | h⟩
    · exact hk _ _ h.2
    · exact hk _ _ h.2
    · exact hk _ _ h.2
  simp only [hno, or_false]

/-- A per-document key is recorded only by the check of its own entry and suffix. -/
theorem docKey_mem_keys_newErrors (env : Env) (s : FormState) (i : Nat) (sfx : String)
    (hs : IsDocSuffix sfx) :
    docKey i sfx ∈ ErrorMap.keys (newErrors env s) ↔
      ∃ d, s.documents[i]? = some d ∧
        ((d.fileName = "" ∧ sfx = "FileName") ∨
         (d.fileType = "" ∧ sfx = "FileType") ∨
         (d.file = none ∧ sfx = "File")) := by
  rw [mem_keys_newErrors]
  have hn := hs.noDigitHead
  have f1 : docKey i sfx ≠ "firstName" := fun h =>
    IsFieldKey.ne_docKey (Or.inl rfl) i sfx h.symm
  have f2 : docKey i sfx ≠ "lastName" := fun h =>
    IsFieldKey.ne_docKey (Or.inr (Or.inl rfl)) i sfx h.symm
  have f3 : docKey i sfx ≠ "email" := fun h =>
    IsFieldKey.ne_docKey (Or.inr (Or.inr (Or.inl rfl))) i sfx h.symm
  have f4 : docKey i sfx ≠ "dateOfBirth" := fun h =>
    IsFieldKey.ne_docKey (Or.inr (Or.inr (Or.inr (Or.inl rfl)))) i sfx h.symm
  have f5 : docKey i sfx ≠ "residentialStreet1" := fun h =>
    IsFieldKey.ne_docKey (Or.inr (Or.inr (Or.inr (Or.inr (Or.inl rfl))))) i sfx h.symm
  have f6 : docKey i sfx ≠ "permanentStreet1" := fun h =>
    IsFieldKey.ne_docKey (Or.inr (Or.inr (Or.inr (Or.inr (Or.inr rfl))))) i sfx h.symm
  have f7 : docKey i sfx ≠ "documents" := fun h => documents_ne_docKey i sfx h.symm
  simp only [f1, f2, f3, f4, f5, f6, f7, and_false, false_or]
  have n1 : NoDigitHead ("FileName" : String).data := IsDocSuffix.noDigitHead (Or.inl rfl)
  have n2 : NoDigitHead ("FileType" : String).data :=
    IsDocSuffix.noDigitHead (Or.inr (Or.inl rfl))
  have n3 : NoDigitHead ("File" : String).data := IsDocSuffix.noDigitHead (Or.inr (Or.inr rfl))
  constructor
  · rintro ⟨j, d, hj, h | h | h⟩
    · obtain ⟨hij, hsfx⟩ := docKey_inj hn n1 h.2
      subst hij
      exact ⟨d, hj, Or.inl ⟨h.1, hsfx⟩⟩
    · obtain ⟨hij, hsfx⟩ := docKey_inj hn n2 h.2
      subst hij
      exact ⟨d, hj, Or.inr (Or.inl ⟨h.1, hsfx⟩)⟩
    · obtain ⟨hij, hsfx⟩ := docKey_inj hn n3 h.2
      subst hij
      exact ⟨d, hj, Or.inr (Or.inr ⟨h.1, hsfx⟩)⟩
  · rintro ⟨d, hi, h | h | h⟩
    · exact ⟨i, d, hi, Or.inl ⟨h.1, by rw [h.2]⟩⟩
    · exact ⟨i, d, hi, Or.inr (Or.inl ⟨h.1, by rw [h.2]⟩)⟩
    · exact ⟨i, d, hi, Or.inr (Or.inr ⟨h.1, by rw [h.2]⟩)⟩

theorem validateForm_errors (env : Env) (s : FormState) :
    (validateForm env s).1.errors = newErrors env s := rfl

theorem validateForm_snd_eq_true_iff (env : Env) (s : FormState) :
    (validateForm env s).2 = true ↔ newErrors env s = [] := by
  simp [validateForm, ErrorMap.keys]

theorem validateForm_snd_eq_false_of_mem (env : Env) (s : FormState) (k : String)
    (h : k ∈ ErrorMap.keys (newErrors env s)) : (validateForm env s).2 = false := by
  cases hb : (validateForm env s).2
  · rfl
  · rw [(validateForm_snd_eq_true_iff env s).1 hb] at h
    simp [ErrorMap.keys] at h

/-- When `validateForm` records the key `dateOfBirth`: on a blank string, or when the number
`validateDateOfBirth` returns is falsy, that is `0` or `NaN`. -/
theorem dateOfBirth_mem_keys_newErrors (env : Env) (s : FormState) :
    "dateOfBirth" ∈ ErrorMap.keys (newErrors env s) ↔
      isBlank s.dateOfBirth ∨ (validateDateOfBirth env s.dateOfBirth).truthy = false := by
  rw [not_docKey_mem_keys_newErrors env s "dateOfBirth"
    (IsFieldKey.ne_docKey (Or.inr (Or.inr (Or.inr (Or.inl rfl)))))]
  constructor
  · rintro (h | h | h | h | h | h | h)
    · exact absurd h.2 (by decide)
    · exact absurd h.2 (by decide)
    · exact absurd h.2 (by decide)
    · exact h.1
    · exact absurd h.2 (by decide)
    · exact absurd h.2 (by decide)
    · exact absurd h.2 (by decide)
  · intro h
    exact Or.inr (Or.inr (Or.inr (Or.inl ⟨h, rfl⟩)))

/-! ## The documents list -/

theorem filterWithIndex_ne_of_lt {α : Type} (index : Nat) (l : List α) :
    ∀ start, index < start → filterWithIndex (fun _ i => i != index) l start = l := by
  induction l with
  | nil => intro start _; rfl
  | cons x rest ih =>
    intro start h
    have hne : (start != index) = true := by simp; omega
    simp only [filterWithIndex, hne, if_true]
    rw [ih (start + 1) (by omega)]

theorem filterWithIndex_ne_eq_eraseIdx {α : Type} (index : Nat) (l : List α) :
    ∀ start, start ≤ index →
      filterWithIndex (fun _ i => i != index) l start = l.eraseIdx (index - start) := by
  induction l with
  | nil => intro start _; rfl
  | cons x rest ih =>
    intro start h
    by_cases he : start = index
    · subst he
      simp [filterWithIndex, filterWithIndex_ne_of_lt]
    · have hne : (start != index) = true := by simp [he]
      simp only [filterWithIndex, hne, if_true]
      rw [ih (start + 1) (by omega)]
      rw [show index - start = (index - (start + 1)) + 1 by omega, List.eraseIdx_cons_succ]

theorem handleRemoveDocument_documents (s : FormState) (index : Nat) :
    (handleRemoveDocument s index).documents = s.documents.eraseIdx index := by
  simp [handleRemoveDocument, filterWithIndex_ne_eq_eraseIdx]

theorem handleFileChange_length (s : FormState) (file : Option JsFile) (index : Nat) :
    (handleFileChange s file index).documents.length = s.documents.length := by
  cases file with
  | none => rfl
  | some f =>
    simp only [handleFileChange]
    split <;> simp

theorem step_length_pos (s t : FormState) (ev : UiEvent) (hs : 1 ≤ s.documents.length)
    (h : step s ev = some t) : 1 ≤ t.documents.length := by
  unfold step at h
  split at h
  · next hoff =>
    simp only [Option.some.injEq] at h
    subst h
    cases ev with
    | addDocument => simp [dispatch, handleAddDocument]
    | removeDocument index =>
      simp only [offered, Bool.and_eq_true, decide_eq_true_eq] at hoff
      simp only [dispatch, handleRemoveDocument_documents]
      rw [List.length_eraseIdx_of_lt hoff.1]
      omega
    | fileChange index file =>
      simp only [dispatch, handleFileChange_length]
      exact hs
  · simp at h

/-! ## Submission -/

theorem appendFiles_eq (docs : List Document) :
    ∀ fd : FormData,
      appendFiles docs fd = fd ++ (docs.filterMap fun d => d.file).map filePart := by
  induction docs with
  | nil => intro fd; simp [appendFiles]
  | cons doc rest ih =>
    intro fd
    cases hf : doc.file with
    | none => simp [appendFiles, hf, ih]
    | some f => simp [appendFiles, hf, ih, filePart]

theorem map_file_eq_of_all_some (docs : List Document) (h : ∀ d ∈ docs, d.file ≠ none) :
    docs.map (fun d => d.file) = (docs.filterMap fun d => d.file).map some := by
  induction docs with
  | nil => rfl
  | cons doc rest ih =>
    have hr := ih (fun d hd => h d (List.mem_cons_of_mem _ hd))
    cases hf : doc.file with
    | none => exact absurd hf (h doc (List.mem_cons_self _ _))
    | some f => simp [hf, hr]

theorem buildFormData_eq (s : FormState) :
    buildFormData s =
      scalarParts s ++ (if s.sameAsResidential = true then [] else permanentParts s) ++
        (s.documents.filterMap fun d => d.file).map filePart := by
  simp only [buildFormData]
  rw [appendFiles_eq]
  cases h : s.sameAsResidential <;> simp [scalarParts, permanentParts, h]

theorem requests_handleSubmit_of_valid (env : Env) (s : FormState) (outcome : Outcome)
    (h : (validateForm env s).2 = true) :
    requests (handleSubmit env s outcome).2 =
      [Effect.post "/candidate/submit" (buildFormData s)] := by
  simp only [handleSubmit, h, Bool.not_true, Bool.false_eq_true, if_false]
  cases outcome with
  | response success message => cases success <;> simp [requests]
  | transportError => simp [requests]

theorem valid_documents (env : Env) (s : FormState) (h : (validateForm env s).2 = true) :
    2 ≤ s.documents.length ∧ ∀ d ∈ s.documents, d.file ≠ none := by
  have hnil := (validateForm_snd_eq_true_iff env s).1 h
  have hno : ∀ k, k ∉ ErrorMap.keys (newErrors env s) := by
    intro k; rw [hnil]; simp [ErrorMap.keys]
  constructor
  · by_contra hlt
    exact hno "documents" ((mem_keys_newErrors env s _).2
      (Or.inr (Or.inr (Or.inr (Or.inr (Or.inr (Or.inr (Or.inl ⟨by omega, rfl⟩))))))))
  · intro d hd hfile
    obtain ⟨j, hj, hget⟩ := List.getElem_of_mem hd
    have hj2 : s.documents[j]? = some d := by
      rw [List.getElem?_eq_getElem hj, hget]
    exact hno (docKey j "File") ((mem_keys_newErrors env s _).2
      (Or.inr (Or.inr (Or.inr (Or.inr (Or.inr (Or.inr (Or.inr
        ⟨j, d, hj2, Or.inr (Or.inr ⟨hfile, rfl⟩)⟩))))))))

/-! ## Age gate of `validateForm` -/

/-- C1 (the code at the failing input): with the clock at 6 November 2026, a date of birth of
7 November 2008, one day short of 18 years, has computed age 17, yet `validateForm` records no
error under `dateOfBirth` and returns true: the test `!validateDateOfBirth(dateOfBirth)` only
fires on age 0 or `NaN`. -/
theorem validateForm_accepts_minor :
    validateDateOfBirth sampleEnv "2008-11-07" = JsNum.num 17 ∧
      "dateOfBirth" ∉
        ErrorMap.keys (validateForm sampleEnv { sampleValid with dateOfBirth := "2008-11-07" }).1.errors ∧
      (validateForm sampleEnv { sampleValid with dateOfBirth := "2008-11-07" }).2 = true := by
  decide

/-! ## Required fields, the documents count and the permanent address -/

/-- C2: when exactly one of the five required text fields is blank and everything else is
valid (the other required texts non-blank, the date of birth of age at least 18,
`sameAsResidential` true or the permanent street non-blank, at least two documents, each
complete), the error object of `validateForm` has exactly one key, the key of that field, and
`validateForm` returns false. -/
theorem validateForm_single_blank_field (env : Env) (s : FormState) (f : RequiredField)
    (hblank : isBlank (f.value s))
    (hothers : ∀ g, g ≠ f → ¬ isBlank (g.value s))
    (hadult : f ≠ RequiredField.dateOfBirth →
      ∃ n : Int, validateDateOfBirth env s.dateOfBirth = JsNum.num n ∧ 18 ≤ n)
    (hperm : s.sameAsResidential = true ∨ ¬ isBlank s.permanentAddress.street1)
    (hcount : 2 ≤ s.documents.length)
    (hcomplete : ∀ d ∈ s.documents, d.fileName ≠ "" ∧ d.fileType ≠ "" ∧ d.file ≠ none) :
    ErrorMap.keys (validateForm env s).1.errors = [f.key] ∧ (validateForm env s).2 = false := by
  have hb : strTruthy (jsTrim (f.value s)) = false := (trim_falsy_iff _).2 hblank
  have hv : ∀ g, g ≠ f → strTruthy (jsTrim (g.value s)) = true :=
    fun g hg => (trim_truthy_iff _).2 (hothers g hg)
  have hp : (!s.sameAsResidential && !strTruthy (jsTrim s.permanentAddress.street1)) = false := by
    rcases hperm with h | h
    · simp [h]
    · simp [(trim_truthy_iff _).2 h]
  have hl : decide (s.documents.length < 2) = false := by
    simp only [decide_eq_false_iff_not]; omega
  have hage : f ≠ RequiredField.dateOfBirth →
      (validateDateOfBirth env s.dateOfBirth).truthy = true := by
    intro hf
    obtain ⟨n, hn, h18⟩ := hadult hf
    rw [hn]
    simp only [JsNum.truthy, decide_eq_true_eq]
    omega
  have hkeys : ErrorMap.keys (newErrors env s) = [f.key] := by
    simp only [newErrors]
    rw [validateDocuments_complete _ hcomplete, hp, hl]
    cases f
    · have h2 := hv RequiredField.lastName (by decide)
      have h3 := hv RequiredField.email (by decide)
      have h4 := hv RequiredField.dateOfBirth (by decide)
      have h5 := hv RequiredField.residentialStreet1 (by decide)
      have h6 := hage (by decide)
      simp only [RequiredField.value] at hb h2 h3 h4 h5
      simp [hb, h2, h3, h4, h5, h6, ErrorMap.setIf, ErrorMap.set, ErrorMap.keys,
        RequiredField.key]
    · have h1 := hv RequiredField.firstName (by decide)
      have h3 := hv RequiredField.email (by decide)
      have h4 := hv RequiredField.dateOfBirth (by decide)
      have h5 := hv RequiredField.residentialStreet1 (by decide)
      have h6 := hage (by decide)
      simp only [RequiredField.value] at hb h1 h3 h4 h5
      simp [hb, h1, h3, h4, h5, h6, ErrorMap.setIf, ErrorMap.set, ErrorMap.keys,
        RequiredField.key]
    · have h1 := hv RequiredField.firstName (by decide)
      have h2 := hv RequiredField.lastName (by decide)
      have h4 := hv RequiredField.dateOfBirth (by decide)
      have h5 := hv RequiredField.residentialStreet1 (by decide)
      have h6 := hage (by decide)
      simp only [RequiredField.value] at hb h1 h2 h4 h5
      simp [hb, h1, h2, h4, h5, h6, ErrorMap.setIf, ErrorMap.set, ErrorMap.keys,
        RequiredField.key]
    · have h1 := hv RequiredField.firstName (by decide)
      have h2 := hv RequiredField.lastName (by decide)
      have h3 := hv RequiredField.email (by decide)
      have h5 := hv RequiredField.residentialStreet1 (by decide)
      simp only [RequiredField.value] at hb h1 h2 h3 h5
      cases h6 : (validateDateOfBirth env s.dateOfBirth).truthy <;>
        simp [hb, h1, h2, h3, h5, ErrorMap.setIf, ErrorMap.set, ErrorMap.keys,
          RequiredField.key]
    · have h1 := hv RequiredField.firstName (by decide)
      have h2 := hv RequiredField.lastName (by decide)
      have h3 := hv RequiredField.email (by decide)
      have h4 := hv RequiredField.dateOfBirth (by decide)
      have h6 := hage (by decide)
      simp only [RequiredField.value] at hb h1 h2 h3 h4
      simp [hb, h1, h2, h3, h4, h6, ErrorMap.setIf, ErrorMap.set, ErrorMap.keys,
        RequiredField.key]
  refine ⟨hkeys, ?_⟩
  apply validateForm_snd_eq_false_of_mem env s f.key
  rw [hkeys]
  exact List.mem_singleton_self _

/-- C2 at a concrete state: the sample form with a whitespace-only first name. -/
theorem validateForm_single_blank_field_witness :
    ErrorMap.keys (validateForm sampleEnv { sampleValid with firstName := " \t" }).1.errors =
        ["firstName"] ∧
      (validateForm sampleEnv { sampleValid with firstName := " \t" }).2 = false :=
  validateForm_single_blank_field sampleEnv { sampleValid with firstName := " \t" }
    RequiredField.firstName (by decide)
    (by intro g hg; cases g <;> first | exact absurd rfl hg | decide)
    (fun _ => ⟨21, by decide, by decide⟩) (Or.inl rfl) (by decide) (by decide)

/-- C3: with 0 or 1 document entries, whatever they and the other fields hold, the error
object of `validateForm` has the key `documents` with the message "At least two documents are
required" and `validateForm` returns false; with 2 or more entries the key `documents` is
absent. -/
theorem validateForm_documents_count (env : Env) (s : FormState) :
    (s.documents.length ≤ 1 →
      "documents" ∈ ErrorMap.keys (validateForm env s).1.errors ∧
      ErrorMap.get (validateForm env s).1.errors "documents" =
        some "At least two documents are required" ∧
      (validateForm env s).2 = false) ∧
    (2 ≤ s.documents.length →
      "documents" ∉ ErrorMap.keys (validateForm env s).1.errors) := by
  rw [validateForm_errors]
  have hmem := not_docKey_mem_keys_newErrors env s "documents" documents_ne_docKey
  constructor
  · intro hlen
    have hlt : s.documents.length < 2 := by omega
    have hin : "documents" ∈ ErrorMap.keys (newErrors env s) :=
      hmem.2 (Or.inr (Or.inr (Or.inr (Or.inr (Or.inr (Or.inr ⟨hlt, rfl⟩))))))
    refine ⟨hin, ?_, validateForm_snd_eq_false_of_mem env s _ hin⟩
    simp only [newErrors]
    rw [get_validateDocuments_of_not_docKey _ _ documents_ne_docKey, ErrorMap.get_setIf]
    simp [hlt]
  · intro hlen hin
    rcases hmem.1 hin with h | h | h | h | h | h | h
    · exact absurd h.2 (by decide)
    · exact absurd h.2 (by decide)
    · exact absurd h.2 (by decide)
    · exact absurd h.2 (by decide)
    · exact absurd h.2 (by decide)
    · exact absurd h.2 (by decide)
    · omega

/-- C3 at concrete states: the state at mount (one empty entry), the sample form cut down to
its first, complete document, and the sample form with its two documents. -/
theorem validateForm_documents_count_witness :
    ("documents" ∈ ErrorMap.keys (validateForm sampleEnv initialState).1.errors ∧
      ErrorMap.get (validateForm sampleEnv initialState).1.errors "documents" =
        some "At least two documents are required" ∧
      (validateForm sampleEnv initialState).2 = false) ∧
    ("documents" ∈ ErrorMap.keys
        (validateForm sampleEnv { sampleValid with documents := [documentOf samplePdf] }).1.errors ∧
      ErrorMap.get
        (validateForm sampleEnv { sampleValid with documents := [documentOf samplePdf] }).1.errors
        "documents" = some "At least two documents are required" ∧
      (validateForm sampleEnv { sampleValid with documents := [documentOf samplePdf] }).2 =
        false) ∧
    "documents" ∉ ErrorMap.keys (validateForm sampleEnv sampleValid).1.errors :=
  ⟨(validateForm_documents_count sampleEnv initialState).1 (by decide),
   (validateForm_documents_count sampleEnv
      { sampleValid with documents := [documentOf samplePdf] }).1 (by decide),
   (validateForm_documents_count sampleEnv sampleValid).2 (by decide)⟩

/-- C5: when `sameAsResidential` is true the error object of `validateForm` never has the key
`permanentStreet1`, whatever the permanent street is; when it is false the key is present
exactly when the permanent street is empty or whitespace-only. -/
theorem validateForm_permanentStreet1 (env : Env) (s : FormState) :
    (s.sameAsResidential = true →
      "permanentStreet1" ∉ ErrorMap.keys (validateForm env s).1.errors) ∧
    (s.sameAsResidential = false →
      ("permanentStreet1" ∈ ErrorMap.keys (validateForm env s).1.errors ↔
        isBlank s.permanentAddress.street1)) := by
  rw [validateForm_errors]
  have hmem := not_docKey_mem_keys_newErrors env s "permanentStreet1"
    (IsFieldKey.ne_docKey (Or.inr (Or.inr (Or.inr (Or.inr (Or.inr rfl))))))
  have hiff : "permanentStreet1" ∈ ErrorMap.keys (newErrors env s) ↔
      (s.sameAsResidential = false ∧ isBlank s.permanentAddress.street1) := by
    rw [hmem]
    constructor
    · rintro (h | h | h | h | h | h | h)
      · exact absurd h.2 (by decide)
      · exact absurd h.2 (by decide)
      · exact absurd h.2 (by decide)
      · exact absurd h.2 (by decide)
      · exact absurd h.2 (by decide)
      · exact h.1
      · exact absurd h.2 (by decide)
    · intro h
      exact Or.inr (Or.inr (Or.inr (Or.inr (Or.inr (Or.inl ⟨h, rfl⟩)))))
  constructor
  · intro htrue hin
    have := (hiff.1 hin).1
    rw [htrue] at this
    exact absurd this (by decide)
  · intro hfalse
    rw [hiff]
    exact ⟨fun h => h.2, fun h => ⟨hfalse, h⟩⟩

/-- C5 at concrete states: the sample form with an empty permanent street, first with
`sameAsResidential` true, then false. -/
theorem validateForm_permanentStreet1_witness :
    "permanentStreet1" ∉ ErrorMap.keys (validateForm sampleEnv sampleValid).1.errors ∧
    ("permanentStreet1" ∈ ErrorMap.keys
        (validateForm sampleEnv { sampleValid with sameAsResidential := false }).1.errors ↔
      isBlank ({ sampleValid with sameAsResidential := false } : FormState).permanentAddress.street1) :=
  ⟨(validateForm_permanentStreet1 sampleEnv sampleValid).1 rfl,
   (validateForm_permanentStreet1 sampleEnv { sampleValid with sameAsResidential := false }).2 rfl⟩

/-- C9: for every index `i` of the documents list, whatever its length, the error object of
`validateForm` has the key `document<i>FileName` exactly when entry `i` has an empty
`fileName`, the key `document<i>FileType` exactly when its `fileType` is empty, and the key
`document<i>File` exactly when its `file` is absent: each key depends on its own field of its
own entry only. -/
theorem validateForm_document_entry (env : Env) (s : FormState) (i : Nat) (d : Document)
    (hi : s.documents[i]? = some d) :
    (docKey i "FileName" ∈ ErrorMap.keys (validateForm env s).1.errors ↔ d.fileName = "") ∧
    (docKey i "FileType" ∈ ErrorMap.keys (validateForm env s).1.errors ↔ d.fileType = "") ∧
    (docKey i "File" ∈ ErrorMap.keys (validateForm env s).1.errors ↔ d.file = none) := by
  rw [validateForm_errors]
  refine ⟨?_, ?_, ?_⟩
  · rw [docKey_mem_keys_newErrors env s i "FileName" (Or.inl rfl)]
    constructor
    · rintro ⟨d1, h1, h | h | h⟩
      · rw [hi] at h1
        cases h1
        exact h.1
      · exact absurd h.2 (by decide)
      · exact absurd h.2 (by decide)
    · intro h
      exact ⟨d, hi, Or.inl ⟨h, rfl⟩⟩
  · rw [docKey_mem_keys_newErrors env s i "FileType" (Or.inr (Or.inl rfl))]
    constructor
    · rintro ⟨d1, h1, h | h | h⟩
      · exact absurd h.2 (by decide)
      · rw [hi] at h1
        cases h1
        exact h.1
      · exact absurd h.2 (by decide)
    · intro h
      exact ⟨d, hi, Or.inr (Or.inl ⟨h, rfl⟩)⟩
  · rw [docKey_mem_keys_newErrors env s i "File" (Or.inr (Or.inr rfl))]
    constructor
    · rintro ⟨d1, h1, h | h | h⟩
      · exact absurd h.2 (by decide)
      · exact absurd h.2 (by decide)
      · rw [hi] at h1
        cases h1
        exact h.1
    · intro h
      exact ⟨d, hi, Or.inr (Or.inr ⟨h, rfl⟩)⟩

/-- C9 at a concrete state: entry 1 of a three-entry list has a name, no type and no file. -/
theorem validateForm_document_entry_witness :
    (docKey 1 "FileName" ∈ ErrorMap.keys (validateForm sampleEnv
        { sampleValid with
          documents := [documentOf samplePdf, { fileName := "x", fileType := "", file := none },
            documentOf sampleJpeg] }).1.errors ↔ ("x" : String) = "") ∧
    (docKey 1 "FileType" ∈ ErrorMap.keys (validateForm sampleEnv
        { sampleValid with
          documents := [documentOf samplePdf, { fileName := "x", fileType := "", file := none },
            documentOf sampleJpeg] }).1.errors ↔ ("" : String) = "") ∧
    (docKey 1 "File" ∈ ErrorMap.keys (validateForm sampleEnv
        { sampleValid with
          documents := [documentOf samplePdf, { fileName := "x", fileType := "", file := none },
            documentOf sampleJpeg] }).1.errors ↔ (none : Option JsFile) = none) :=
  validateForm_document_entry sampleEnv
    { sampleValid with
      documents := [documentOf samplePdf, { fileName := "x", fileType := "", file := none },
        documentOf sampleJpeg] }
    1 { fileName := "x", fileType := "", file := none } rfl

/-! ## File selection -/

/-- C4: for a slot `i` of the documents list and a selected file, `handleFileChange` is the
MIME gate.  A type other than `image/jpeg`, `image/png`, `application/pdf` leaves the
documents list identical and yields the previous error object with `document<i>` set to the
invalid-type message.  One of the three types keeps the length, makes slot `i` the entry
built from the file, leaves every other slot unchanged, and yields the previous error object
with `document<i>` set to the empty string. -/
theorem handleFileChange_gate (s : FormState) (i : Nat) (f : JsFile)
    (hi : i < s.documents.length) :
    (¬ (f.mimeType = "image/jpeg" ∨ f.mimeType = "image/png" ∨
          f.mimeType = "application/pdf") →
      (handleFileChange s (some f) i).documents = s.documents ∧
      (handleFileChange s (some f) i).errors = ErrorMap.set s.errors (docKey i "")
        "Invalid file type. Only JPEG, PNG, and PDF are allowed." ∧
      ErrorMap.get (handleFileChange s (some f) i).errors (docKey i "") =
        some "Invalid file type. Only JPEG, PNG, and PDF are allowed." ∧
      ∀ k, k ≠ docKey i "" →
        ErrorMap.get (handleFileChange s (some f) i).errors k = ErrorMap.get s.errors k) ∧
    ((f.mimeType = "image/jpeg" ∨ f.mimeType = "image/png" ∨
          f.mimeType = "application/pdf") →
      (handleFileChange s (some f) i).documents.length = s.documents.length ∧
      (handleFileChange s (some f) i).documents[i]? =
        some { fileName := f.name, fileType := f.mimeType, file := some f } ∧
      (∀ j, j ≠ i → (handleFileChange s (some f) i).documents[j]? = s.documents[j]?) ∧
      (handleFileChange s (some f) i).errors = ErrorMap.set s.errors (docKey i "") "" ∧
      ErrorMap.get (handleFileChange s (some f) i).errors (docKey i "") = some "" ∧
      ∀ k, k ≠ docKey i "" →
        ErrorMap.get (handleFileChange s (some f) i).errors k = ErrorMap.get s.errors k) := by
  have hv : validateFile (some f) = true ↔
      (f.mimeType = "image/jpeg" ∨ f.mimeType = "image/png" ∨
        f.mimeType = "application/pdf") := by
    simp [validateFile, allowedTypes]
  constructor
  · intro hbad
    have hf : validateFile (some f) = false := by
      cases hb : validateFile (some f)
      · rfl
      · exact absurd (hv.1 hb) hbad
    simp only [handleFileChange, hf, Bool.not_false, if_true]
    refine ⟨trivial, trivial, ?_, ?_⟩
    · rw [ErrorMap.get_set]; simp
    · intro k hk
      rw [ErrorMap.get_set]; simp [hk]
  · intro hok
    have hf : validateFile (some f) = true := hv.2 hok
    simp only [handleFileChange, hf, Bool.not_true, Bool.false_eq_true, if_false]
    refine ⟨by simp, by simp [hi], ?_, trivial, ?_, ?_⟩
    · intro j hj
      exact List.getElem?_set_ne (Ne.symm hj)
    · rw [ErrorMap.get_set]; simp
    · intro k hk
      rw [ErrorMap.get_set]; simp [hk]

/-- C4 at concrete inputs: on the sample form, a plain-text file for slot 0 and a PDF for
slot 1. -/
theorem handleFileChange_gate_witness :
    ((handleFileChange sampleValid (some sampleText) 0).documents = sampleValid.documents ∧
      ErrorMap.get (handleFileChange sampleValid (some sampleText) 0).errors (docKey 0 "") =
        some "Invalid file type. Only JPEG, PNG, and PDF are allowed.") ∧
    ((handleFileChange sampleValid (some samplePdf) 1).documents[1]? =
        some { fileName := samplePdf.name, fileType := samplePdf.mimeType,
               file := some samplePdf } ∧
      ErrorMap.get (handleFileChange sampleValid (some samplePdf) 1).errors (docKey 1 "") =
        some "") :=
  ⟨⟨((handleFileChange_gate sampleValid 0 sampleText (by decide)).1 (by decide)).1,
    ((handleFileChange_gate sampleValid 0 sampleText (by decide)).1 (by decide)).2.2.1⟩,
   ⟨((handleFileChange_gate sampleValid 1 samplePdf (by decide)).2 (by decide)).2.1,
    ((handleFileChange_gate sampleValid 1 samplePdf (by decide)).2 (by decide)).2.2.2.2.1⟩⟩

/-! ## Removing a document -/

/-- C6: the remove control is on screen only when the documents list has more than one entry;
on a list of length `n ≥ 2` and an index `i < n`, `handleRemoveDocument` yields the list of
length `n - 1` made of the original entries other than the one at `i`, in their order; so
every list reached from the one-entry list at mount through add, remove (when offered) and
file change has at least one entry. -/
theorem handleRemoveDocument_contract :
    (∀ (s : FormState) (i : Nat),
      offered s (UiEvent.removeDocument i) = true → 1 < s.documents.length) ∧
    (∀ (s : FormState) (i : Nat), 2 ≤ s.documents.length → i < s.documents.length →
      (handleRemoveDocument s i).documents = s.documents.eraseIdx i ∧
      (handleRemoveDocument s i).documents.length = s.documents.length - 1 ∧
      (∀ j, j < i → (handleRemoveDocument s i).documents[j]? = s.documents[j]?) ∧
      (∀ j, i ≤ j → (handleRemoveDocument s i).documents[j]? = s.documents[j + 1]?)) ∧
    (∀ s : FormState, Reachable s → 1 ≤ s.documents.length) := by
  refine ⟨?_, ?_, ?_⟩
  · intro s i h
    simp only [offered, Bool.and_eq_true, decide_eq_true_eq] at h
    exact h.2
  · intro s i _ hi
    rw [handleRemoveDocument_documents]
    exact ⟨rfl, List.length_eraseIdx_of_lt hi,
      fun j hj => List.getElem?_eraseIdx_of_lt _ _ _ hj,
      fun j hj => List.getElem?_eraseIdx_of_ge _ _ _ hj⟩
  · intro s hs
    induction hs with
    | mount => simp [initialState]
    | next ev _ hstep ih => exact step_length_pos _ _ ev ih hstep

/-- C6 at concrete inputs: no remove control at mount; removing entry 0 of the two sample
documents leaves the second; a state reached by adding a row and removing row 0 keeps one
entry. -/
theorem handleRemoveDocument_contract_witness :
    ¬ (offered initialState (UiEvent.removeDocument 0) = true) ∧
    (handleRemoveDocument sampleValid 0).documents = [documentOf sampleJpeg] ∧
    1 ≤ (handleRemoveDocument (handleAddDocument initialState) 0).documents.length :=
  ⟨fun h => absurd (handleRemoveDocument_contract.1 initialState 0 h) (by decide),
   (handleRemoveDocument_contract.2.1 sampleValid 0 (by decide) (by decide)).1,
   handleRemoveDocument_contract.2.2 _
     (@Reachable.next (handleAddDocument initialState)
       (handleRemoveDocument (handleAddDocument initialState) 0) (UiEvent.removeDocument 0)
       (@Reachable.next initialState (handleAddDocument initialState) UiEvent.addDocument
         Reachable.mount (by decide))
       (by decide))⟩

/-! ## Submission -/

/-- C7: when `validateForm` returns true, the one request of `handleSubmit` carries, in
order, firstName, lastName, email, dateOfBirth, sameAsResidential, the two residential
address fields, then the two permanent address fields if and only if `sameAsResidential` is
false, then one part named `documents` per entry of the documents list, in list order, with
that entry's file; the file parts are as many as the documents and at least 2. -/
theorem handleSubmit_payload (env : Env) (s : FormState) (outcome : Outcome)
    (hvalid : (validateForm env s).2 = true) :
    ∃ files : List JsFile,
      s.documents.map (fun d => d.file) = files.map some ∧
      requests (handleSubmit env s outcome).2 =
        [Effect.post "/candidate/submit"
          (scalarParts s ++ (if s.sameAsResidential = true then [] else permanentParts s) ++
            files.map filePart)] ∧
      files.length = s.documents.length ∧ 2 ≤ files.length := by
  obtain ⟨hlen, hfiles⟩ := valid_documents env s hvalid
  have hmap := map_file_eq_of_all_some s.documents hfiles
  have hl : (s.documents.filterMap fun d => d.file).length = s.documents.length := by
    have := congrArg List.length hmap
    simpa using this.symm
  refine ⟨s.documents.filterMap fun d => d.file, hmap, ?_, hl, by omega⟩
  rw [requests_handleSubmit_of_valid env s outcome hvalid, buildFormData_eq]

/-- C7 at a concrete state: the sample form, with the request rejected at transport level. -/
theorem handleSubmit_payload_witness :
    ∃ files : List JsFile,
      sampleValid.documents.map (fun d => d.file) = files.map some ∧
      requests (handleSubmit sampleEnv sampleValid Outcome.transportError).2 =
        [Effect.post "/candidate/submit"
          (scalarParts sampleValid ++
            (if sampleValid.sameAsResidential = true then [] else permanentParts sampleValid) ++
            files.map filePart)] ∧
      files.length = sampleValid.documents.length ∧ 2 ≤ files.length :=
  handleSubmit_payload sampleEnv sampleValid Outcome.transportError (by decide)

/-- C8: whatever the backend outcome, `handleSubmit` issues exactly one request when
`validateForm` returns true and none when it returns false; it navigates, and then to the
success route, exactly when validation passed and the response is marked successful; and on a
failure response or a transport error the state is the one right after validation: the field
values and the documents of before, with the error object validation built. -/
theorem handleSubmit_contract (env : Env) (s : FormState) (outcome : Outcome) :
    ((validateForm env s).2 = true → (requests (handleSubmit env s outcome).2).length = 1) ∧
    ((validateForm env s).2 = false → (requests (handleSubmit env s outcome).2).length = 0) ∧
    navigations (handleSubmit env s outcome).2 =
      (if (validateForm env s).2 = true ∧ outcome.succeeded = true then ["/success-page"]
       else []) ∧
    (outcome.succeeded = false →
      (handleSubmit env s outcome).1 = (validateForm env s).1 ∧
      (handleSubmit env s outcome).1 = { s with errors := newErrors env s }) := by
  refine ⟨?_, ?_, ?_, ?_⟩
  · intro h
    rw [requests_handleSubmit_of_valid env s outcome h]
    rfl
  · intro h
    simp [handleSubmit, h, requests]
  · cases h : (validateForm env s).2
    · simp [handleSubmit, h, navigations]
    · simp only [handleSubmit, h, Bool.not_true, Bool.false_eq_true, if_false]
      cases outcome with
      | response success message => cases success <;> simp [navigations, Outcome.succeeded]
      | transportError => simp [navigations, Outcome.succeeded]
  · intro _
    have hfst : (handleSubmit env s outcome).1 = (validateForm env s).1 := by
      cases h : (validateForm env s).2
      · simp [handleSubmit, h]
      · simp only [handleSubmit, h, Bool.not_true, Bool.false_eq_true, if_false]
        cases outcome with
        | response success message => cases success <;> rfl
        | transportError => rfl
    exact ⟨hfst, by rw [hfst]; rfl⟩

/-- C8 at concrete inputs: the sample form under a failure response and under a transport
error (one request, state as after validation), and the state at mount (no request). -/
theorem handleSubmit_contract_witness :
    (requests (handleSubmit sampleEnv sampleValid (Outcome.response false "rejected")).2).length
        = 1 ∧
    (requests (handleSubmit sampleEnv initialState (Outcome.response true "")).2).length = 0 ∧
    (handleSubmit sampleEnv sampleValid Outcome.transportError).1 =
      (validateForm sampleEnv sampleValid).1 :=
  ⟨(handleSubmit_contract sampleEnv sampleValid (Outcome.response false "rejected")).1
      (by decide),
   (handleSubmit_contract sampleEnv initialState (Outcome.response true "")).2.1 (by decide),
   ((handleSubmit_contract sampleEnv sampleValid Outcome.transportError).2.2.2 rfl).1⟩

/-! ## The computed age -/

/-- C10: for a birth date that parses to valid calendar fields and is not after today,
`validateDateOfBirth` returns the year difference, minus 1 when today's (month, day)
lexicographically precedes the birth (month, day); and this value is the number of whole
calendar years elapsed, the largest `n ≥ 0` whose `n`-th anniversary is not after today. -/
theorem validateDateOfBirth_age (env : Env) (dob : String) (y : Int) (m d : Nat)
    (hparse : env.parseDate dob = JsDate.valid y m d)
    (hle : dateLe y m d env.todayYear env.todayMonth env.todayDate) :
    validateDateOfBirth env dob =
      JsNum.num (env.todayYear - y -
        (if monthDayBefore env.todayMonth env.todayDate m d then 1 else 0)) ∧
    IsGreatest
      {n : Int | 0 ≤ n ∧ dateLe (y + n) m d env.todayYear env.todayMonth env.todayDate}
      (env.todayYear - y -
        (if monthDayBefore env.todayMonth env.todayDate m d then 1 else 0)) := by
  unfold dateLe at hle
  constructor
  · simp only [validateDateOfBirth, Env.today, hparse, JsDate.getFullYear, JsDate.getMonth,
      JsDate.getDate, JsNum.sub, JsNum.lt, JsNum.strictEq]
    by_cases hb : monthDayBefore env.todayMonth env.todayDate m d
    · have hc : (decide ((env.todayMonth : Int) - (m : Int) < 0) ||
          (decide ((env.todayMonth : Int) - (m : Int) = 0) &&
            decide ((env.todayDate : Int) < (d : Int)))) = true := by
        unfold monthDayBefore at hb
        simp only [Bool.or_eq_true, Bool.and_eq_true, decide_eq_true_eq]
        omega
      rw [if_pos hc, if_pos hb]
    · have hc : (decide ((env.todayMonth : Int) - (m : Int) < 0) ||
          (decide ((env.todayMonth : Int) - (m : Int) = 0) &&
            decide ((env.todayDate : Int) < (d : Int)))) = false := by
        unfold monthDayBefore at hb
        rw [Bool.eq_false_iff]
        simp only [ne_eq, Bool.or_eq_true, Bool.and_eq_true, decide_eq_true_eq]
        omega
      rw [if_neg (by rw [hc]; decide), if_neg hb, sub_zero]
  · by_cases hb : monthDayBefore env.todayMonth env.todayDate m d
    · simp only [hb, if_true]
      unfold monthDayBefore at hb
      refine ⟨⟨by omega, ?_⟩, ?_⟩
      · unfold dateLe; omega
      · rintro n ⟨_, hn⟩
        unfold dateLe at hn
        omega
    · simp only [hb, if_false]
      unfold monthDayBefore at hb
      refine ⟨⟨by omega, ?_⟩, ?_⟩
      · unfold dateLe; omega
      · rintro n ⟨_, hn⟩
        unfold dateLe at hn
        omega

/-- C10 at a concrete input: with the clock at 6 November 2026, a birth date of 7 November
2008 gives 17. -/
theorem validateDateOfBirth_age_witness :
    validateDateOfBirth sampleEnv "2008-11-07" =
      JsNum.num (sampleEnv.todayYear - 2008 -
        (if monthDayBefore sampleEnv.todayMonth sampleEnv.todayDate 10 7 then 1 else 0)) ∧
    IsGreatest
      {n : Int | 0 ≤ n ∧
        dateLe (2008 + n) 10 7 sampleEnv.todayYear sampleEnv.todayMonth sampleEnv.todayDate}
      (sampleEnv.todayYear - 2008 -
        (if monthDayBefore sampleEnv.todayMonth sampleEnv.todayDate 10 7 then 1 else 0)) :=
  validateDateOfBirth_age sampleEnv "2008-11-07" 2008 10 7 (by decide) (by decide)

end CandidateForm
